import Mathlib

/-!
A shallow embedding of the postal-data cleaning pipeline in `deepseek.py`
(a pandas script: load an Excel sheet, clean it, print summary statistics,
render five charts, export the cleaned sheet), together with theorems
checking the specification's claims against it.

Modelling conventions:
* A pandas `DataFrame` is a `Table`: a list of column names and a list of
  rows, each row a list of `Value` cells aligned with the column names.
* A cell is a string, a number, or a missing value (`NaN`), modelled by
  `Value.vStr`, `Value.vNum`, `Value.vNull`.
* Python `str.strip()` is `strip` (drop whitespace characters from both
  ends); `str.lower()` is character-wise `Char.toLower` (ASCII case
  mapping, adequate for the spec's ASCII column names).
* Console prints and file writes are modelled as an event trace
  (`Event`); the chart files carry the aggregate data the script computes
  for them (`ChartData`), since the claims concern that data, not pixels.
* `pd.read_excel` may fail, so the pipeline's input is
  `Except String Table`: `.ok df` is a successfully parsed sheet, and
  `.error e` is a read/parse failure raising exception message `e`.
-/

namespace Postal

/-- A cell of the spreadsheet: a string, a number, or a missing value
(pandas `NaN`). -/
inductive Value where
  | vStr (s : String)
  | vNum (n : Int)
  | vNull
deriving DecidableEq, Repr

abbrev Row := List Value

/-- A pandas `DataFrame`: column names plus rows of cells, each row
aligned with `cols`. -/
structure Table where
  cols : List String
  rows : List Row
deriving DecidableEq, Repr

/-- Aggregate data rendered into one chart. -/
inductive ChartData where
  | bars (counts : List (Value × Nat))
  | stacked (cells : List ((Value × Value) × Nat))
deriving DecidableEq, Repr

/-- One observable effect of the script: a console print, a saved chart
image (with the aggregate data it renders), or an exported spreadsheet
(with the table it writes). -/
inductive Event where
  | eprint (line : String)
  | esave (filename : String) (chart : ChartData)
  | eexport (filename : String) (t : Table)
deriving DecidableEq, Repr

/-- `true` exactly on print events; chart saves and spreadsheet exports
are file writes. -/
def Event.isFileWrite : Event → Bool
  | .eprint _ => false
  | .esave _ _ => true
  | .eexport _ _ => true

/-- Drop leading and trailing whitespace characters from a character
list. -/
def trimChars (l : List Char) : List Char :=
  ((l.dropWhile Char.isWhitespace).reverse.dropWhile Char.isWhitespace).reverse

/-- Python `str.strip()`: remove leading and trailing whitespace. -/
def strip (s : String) : String := ⟨trimChars s.data⟩

/-- Python `str.lower()`: lowercase every character. -/
def lowerString (s : String) : String := ⟨s.data.map Char.toLower⟩

/-- `true` exactly on missing values (pandas `NaN`). -/
def Value.isNull : Value → Bool
  | .vNull => true
  | _ => false

/-- `true` exactly on string cells. -/
def Value.isStr : Value → Bool
  | .vStr _ => true
  | _ => false

/-- `df.copy()`: in the immutable embedding, the copy is the table
itself. -/
def Table.copy (t : Table) : Table := t

/-- `df.dropna()`: drop every row containing a missing value. -/
def dropna (t : Table) : Table :=
  { t with rows := t.rows.filter (fun r => !r.any Value.isNull) }

/-- Helper for `dedupFirst`: drop every element already in `seen`,
recording new elements as they are kept. -/
def dedupAux {α : Type} [DecidableEq α] (seen : List α) : List α → List α
  | [] => []
  | a :: as => if a ∈ seen then dedupAux seen as else a :: dedupAux (a :: seen) as

/-- Remove duplicates from a list, keeping the first occurrence of each
element (the pandas `drop_duplicates` / `unique` order). -/
def dedupFirst {α : Type} [DecidableEq α] (l : List α) : List α := dedupAux [] l

/-- `df.drop_duplicates()`: drop exact-duplicate rows, keeping first
occurrences. -/
def drop_duplicates (t : Table) : Table :=
  { t with rows := dedupFirst t.rows }

/-- `name.strip().lower()`, the column-name normalization. -/
def normalizeName (s : String) : String := lowerString (strip s)

/-- `df.columns = df.columns.str.strip().str.lower()`. -/
def normalizeColumns (t : Table) : Table :=
  { t with cols := t.cols.map normalizeName }

/-- The `applymap` cell function `lambda x: x.strip() if isinstance(x, str)
else x`. -/
def trimCell : Value → Value
  | .vStr s => .vStr (strip s)
  | v => v

/-- `df.applymap(lambda x: x.strip() if isinstance(x, str) else x)`. -/
def applymapStrip (t : Table) : Table :=
  { t with rows := t.rows.map (fun r => r.map trimCell) }

/-- The five required columns, in the order the source checks them. -/
def required_columns : List String :=
  ["statename", "district", "officetype", "regionname", "delivery"]

/-- The first required column absent from `t.cols`, if any — the column
whose check raises `ValueError` in the source's verification loop. -/
def missingColumn (t : Table) : Option String :=
  required_columns.find? (fun c => !(t.cols.contains c))

/-- The cleaning body of `load_and_clean_data`, lines 17-27 of the
source: copy, `dropna`, `drop_duplicates`, normalize column names, trim
string cells. -/
def cleanPipeline (df : Table) : Table :=
  applymapStrip (normalizeColumns (drop_duplicates (dropna (Table.copy df))))

/-- The `try` body of `load_and_clean_data`: read (which may raise),
clean, then verify required columns, raising `ValueError` on the first
missing one. Exceptions are the `.error` branch. -/
def loadBody (input : Except String Table) : Except String Table :=
  match input with
  | .error e => .error e
  | .ok df =>
    match missingColumn (cleanPipeline df) with
    | some c => .error ("Required column " ++ c ++ " not found in dataset")
    | none => .ok (cleanPipeline df)

/-- `load_and_clean_data`: run the `try` body; any exception is caught,
printed as a diagnostic, and converted to the `None` result. Returns the
print events it emits together with the cleaned table or `none`. -/
def load_and_clean_data (input : Except String Table) : List Event × Option Table :=
  match loadBody input with
  | .ok t => ([], some t)
  | .error e => ([Event.eprint ("Error loading or cleaning data: " ++ e)], none)

/-- `df[c]`: the column named `c`, as the list of its cells down the
rows. -/
def column (t : Table) (c : String) : List Value :=
  match t.cols.indexOf? c with
  | some i => t.rows.map (fun r => r.getD i Value.vNull)
  | none => []

/-- `series.unique()`: distinct values in first-seen order. -/
def uniqueValues (l : List Value) : List Value := dedupFirst l

/-- `series.nunique()`: the number of distinct values. -/
def nunique (l : List Value) : Nat := (dedupFirst l).length

/-- How a cell is rendered in console output. -/
def Value.display : Value → String
  | .vStr s => s
  | .vNum n => toString n
  | .vNull => "NaN"

/-- How an array of cells is rendered in console output. -/
def displayValues (l : List Value) : String :=
  "[" ++ String.intercalate " " (l.map Value.display) ++ "]"

/-- `generate_summary_stats`: print the header, the row count, the
distinct-state and distinct-district counts, and the distinct office
types (the values themselves); no return value beyond the prints. -/
def generate_summary_stats (df : Table) : List Event :=
  [Event.eprint "\n=== BASIC SUMMARY ===",
   Event.eprint ("Total Entries After Cleaning: " ++ toString df.rows.length),
   Event.eprint ("Unique States: " ++ toString (nunique (column df "statename"))),
   Event.eprint ("Unique Districts: " ++ toString (nunique (column df "district"))),
   Event.eprint ("Unique Office Types: " ++ displayValues (uniqueValues (column df "officetype")))]

/-- `series.value_counts()`: each distinct value with its number of
occurrences, sorted by descending count. -/
def value_counts (l : List Value) : List (Value × Nat) :=
  ((dedupFirst l).map (fun v => (v, l.count v))).mergeSort
    (fun p q => decide (q.2 ≤ p.2))

/-- `df.groupby([c1, c2]).size().unstack().fillna(0)`, flattened to
(key-pair, count) cells. The pandas result orders group keys
sorted; no claim depends on the order, so first-seen order is used. -/
def groupbySizeUnstack (l1 l2 : List Value) : List ((Value × Value) × Nat) :=
  (dedupFirst (l1.zip l2)).map (fun p => (p, (l1.zip l2).count p))

/-- `df['statename'].value_counts().head(10)`: the chart-4 aggregate,
whose counts are also the text labels drawn above the bars. -/
def top10_states (df : Table) : List (Value × Nat) :=
  (value_counts (column df "statename")).take 10

/-- `df['district'].value_counts().head(10)`: the chart-5 aggregate. -/
def top10_districts (df : Table) : List (Value × Nat) :=
  (value_counts (column df "district")).take 10

/-- `create_visualizations`: save the five chart files, in source order,
each carrying the aggregate data the source computes for it. -/
def create_visualizations (df : Table) : List Event :=
  [Event.esave "region_wise_postoffices.png"
     (.bars (value_counts (column df "regionname"))),
   Event.esave "postoffice_types.png"
     (.bars (value_counts (column df "officetype"))),
   Event.esave "delivery_vs_non_delivery.png"
     (.stacked (groupbySizeUnstack (column df "statename") (column df "delivery"))),
   Event.esave "top10_states_postoffices.png" (.bars (top10_states df)),
   Event.esave "top10_districts_heatmap.png" (.bars (top10_districts df))]

/-- `main`: load and clean; on `None`, print the failure message and
stop; otherwise summarize, visualize, export the cleaned table, and
print the milestone messages. -/
def main (input : Except String Table) : List Event :=
  let load := load_and_clean_data input
  Event.eprint "Loading and cleaning data..." :: load.1 ++
    match load.2 with
    | some df_cleaned =>
        generate_summary_stats df_cleaned ++
          (Event.eprint "\nCreating visualizations..." ::
            create_visualizations df_cleaned) ++
          [Event.eexport "cleaned_postal_dataset.xlsx" df_cleaned,
           Event.eprint "\nCleaned dataset saved as cleaned_postal_dataset.xlsx",
           Event.eprint "\nAll visualizations saved successfully!"]
    | none =>
        [Event.eprint "Failed to process data. Please check the input file and try again."]

/-- The console lines of a trace, in order. -/
def printedLines (tr : List Event) : List String :=
  tr.filterMap fun e =>
    match e with
    | .eprint s => some s
    | _ => none

/-- The tables written to spreadsheet files by a trace, in order. -/
def exportedTables (tr : List Event) : List Table :=
  tr.filterMap fun e =>
    match e with
    | .eexport _ t => some t
    | _ => none

/-- The row counts of the spreadsheets written by a trace. -/
def exportedRowCounts (tr : List Event) : List Nat :=
  (exportedTables tr).map fun t => t.rows.length

/-! ### Concrete tables used as witnesses and counterexamples -/

/-- A raw table whose normalized columns lack `delivery`. -/
def dfMissing : Table :=
  { cols := ["StateName ", "District", "OfficeType", "RegionName"],
    rows := [[Value.vStr "Delhi", Value.vStr "Central", Value.vStr "HO", Value.vStr "North"]] }

/-- A raw table with messy column names, one duplicate row, and one row
with a missing value. -/
def dfFull : Table :=
  { cols := ["StateName ", "District", "OfficeType", "RegionName", "Delivery"],
    rows :=
      [[Value.vStr " Delhi ", Value.vStr "Central", Value.vStr "HO", Value.vStr "North",
        Value.vStr "Y"],
       [Value.vStr " Delhi ", Value.vStr "Central", Value.vStr "HO", Value.vStr "North",
        Value.vStr "Y"],
       [Value.vStr "Goa", Value.vStr "South", Value.vStr "BO", Value.vStr "West",
        Value.vNull]] }

/-- A row that already contains no surrounding whitespace. -/
def rowADTRY : Row :=
  [Value.vStr "A", Value.vStr "D", Value.vStr "T", Value.vStr "R", Value.vStr "Y"]

/-- A raw table with an exact duplicate row and a third row that differs
from them only by a trailing space inside one cell. -/
def dfC3 : Table :=
  { cols := required_columns,
    rows := [rowADTRY, rowADTRY,
             [Value.vStr "A ", Value.vStr "D", Value.vStr "T", Value.vStr "R", Value.vStr "Y"]] }

/-- The table `load_and_clean_data` produces from `dfC3`: cell-trimming
has mapped the two surviving rows to the same row. -/
def tC3out : Table := { cols := required_columns, rows := [rowADTRY, rowADTRY] }

/-- One raw row of the top-10 witness table: state `i`, all other cells
constant. -/
def topRow (i : Nat) : Row :=
  [Value.vNum (Int.ofNat i), Value.vNum 0, Value.vNum 0, Value.vNum 0, Value.vNum 0]

/-- A table with 15 distinct states whose row counts are strictly
increasing: state `i` occurs `i + 1` times. -/
def dfTop : Table :=
  { cols := required_columns,
    rows := ((List.range 15).map (fun i => List.replicate (i + 1) (topRow i))).flatten }

/-! ### Helper lemmas about characters -/

theorem isUpper_iff (c : Char) : c.isUpper = true ↔ 65 ≤ c.toNat ∧ c.toNat ≤ 90 := by
  simp only [Char.isUpper, Bool.and_eq_true, decide_eq_true_eq, ge_iff_le,
    UInt32.le_def, BitVec.le_def, Char.toNat, UInt32.toNat]
  norm_num

theorem isWhitespace_iff (c : Char) :
    c.isWhitespace = true ↔ c.toNat = 32 ∨ c.toNat = 9 ∨ c.toNat = 13 ∨ c.toNat = 10 := by
  simp only [Char.isWhitespace, Bool.or_eq_true, decide_eq_true_eq,
    Char.ext_iff, UInt32.ext_iff, Char.toNat]
  have h1 : (' ' : Char).val.toNat = 32 := by decide
  have h2 : ('\t' : Char).val.toNat = 9 := by decide
  have h3 : ('\x0d' : Char).val.toNat = 13 := by decide
  have h4 : ('\n' : Char).val.toNat = 10 := by decide
  rw [h1, h2, h3, h4]
  tauto

theorem toNat_ofNat_of_valid {n : Nat} (h : n.isValidChar) : (Char.ofNat n).toNat = n := by
  simp only [Char.ofNat, dif_pos h, Char.ofNatAux, Char.toNat, UInt32.toNat]
  simp

theorem toLower_toNat (c : Char) :
    (Char.toLower c).toNat = if 65 ≤ c.toNat ∧ c.toNat ≤ 90 then c.toNat + 32 else c.toNat := by
  unfold Char.toLower
  by_cases h : 65 ≤ c.toNat ∧ c.toNat ≤ 90
  · rw [if_pos ⟨h.1, h.2⟩, if_pos h]
    exact toNat_ofNat_of_valid (Or.inl (by omega))
  · rw [if_neg, if_neg h]
    intro hc
    exact h ⟨hc.1, hc.2⟩

theorem toLower_not_upper (c : Char) : (Char.toLower c).isUpper = false := by
  rw [Bool.eq_false_iff]
  intro hu
  have h1 := (isUpper_iff _).mp hu
  rw [toLower_toNat c] at h1
  by_cases h : 65 ≤ c.toNat ∧ c.toNat ≤ 90
  · rw [if_pos h] at h1; omega
  · rw [if_neg h] at h1; exact h h1

theorem toLower_not_ws (c : Char) (hc : c.isWhitespace = false) :
    (Char.toLower c).isWhitespace = false := by
  rw [Bool.eq_false_iff] at hc ⊢
  intro hw
  have h1 := (isWhitespace_iff _).mp hw
  rw [toLower_toNat c] at h1
  by_cases h : 65 ≤ c.toNat ∧ c.toNat ≤ 90
  · rw [if_pos h] at h1; omega
  · rw [if_neg h] at h1
    exact hc ((isWhitespace_iff c).mpr h1)

/-! ### Helper lemmas about `trimChars` -/

theorem getLast?_of_suffix {α : Type} {m l : List α} (h : m <:+ l) (hm : m ≠ []) :
    m.getLast? = l.getLast? := by
  obtain ⟨u, rfl⟩ := h
  rw [List.getLast?_append]
  cases hg : m.getLast? with
  | none => exact absurd (List.getLast?_eq_none_iff.mp hg) hm
  | some c => rfl

theorem trimChars_head? {l : List Char} {c : Char} (h : (trimChars l).head? = some c) :
    c.isWhitespace = false := by
  unfold trimChars at h
  rw [List.head?_reverse] at h
  have hm : List.dropWhile Char.isWhitespace (List.dropWhile Char.isWhitespace l).reverse ≠ [] := by
    intro hnil
    rw [hnil] at h
    exact Option.noConfusion h
  rw [getLast?_of_suffix (List.dropWhile_suffix _) hm, List.getLast?_reverse] at h
  have hd : List.dropWhile Char.isWhitespace l ≠ [] := by
    intro hnil
    rw [hnil] at h
    exact Option.noConfusion h
  have hne := List.head?_eq_head hd
  rw [h] at hne
  have := List.head_dropWhile_not Char.isWhitespace l hd
  rwa [← Option.some.inj hne] at this

theorem trimChars_getLast? {l : List Char} {c : Char} (h : (trimChars l).getLast? = some c) :
    c.isWhitespace = false := by
  unfold trimChars at h
  rw [List.getLast?_reverse] at h
  have hm : List.dropWhile Char.isWhitespace (List.dropWhile Char.isWhitespace l).reverse ≠ [] := by
    intro hnil
    rw [hnil] at h
    exact Option.noConfusion h
  have hne := List.head?_eq_head hm
  rw [h] at hne
  have := List.head_dropWhile_not Char.isWhitespace (List.dropWhile Char.isWhitespace l).reverse hm
  rwa [← Option.some.inj hne] at this

/-! ### Helper lemmas about `dedupFirst` -/

theorem mem_dedupAux {α : Type} [DecidableEq α] (seen : List α) (l : List α) (x : α) :
    x ∈ dedupAux seen l ↔ x ∈ l ∧ x ∉ seen := by
  induction l generalizing seen with
  | nil => simp [dedupAux]
  | cons a as ih =>
    by_cases ha : a ∈ seen
    · rw [dedupAux, if_pos ha, ih]
      constructor
      · rintro ⟨h1, h2⟩
        exact ⟨List.mem_cons_of_mem _ h1, h2⟩
      · rintro ⟨h1, h2⟩
        rcases List.mem_cons.mp h1 with rfl | h1
        · exact absurd ha h2
        · exact ⟨h1, h2⟩
    · rw [dedupAux, if_neg ha]
      constructor
      · intro h
        rcases List.mem_cons.mp h with rfl | h
        · exact ⟨List.mem_cons_self _ _, ha⟩
        · have := (ih (a :: seen)).mp h
          exact ⟨List.mem_cons_of_mem _ this.1,
            fun hx => this.2 (List.mem_cons_of_mem _ hx)⟩
      · rintro ⟨h1, h2⟩
        rcases List.mem_cons.mp h1 with rfl | h1
        · exact List.mem_cons_self _ _
        · by_cases hxa : x = a
          · exact hxa ▸ List.mem_cons_self _ _
          · refine List.mem_cons_of_mem _ ((ih (a :: seen)).mpr ⟨h1, ?_⟩)
            intro hx
            rcases List.mem_cons.mp hx with h | h
            · exact hxa h
            · exact h2 h

theorem mem_dedupFirst {α : Type} [DecidableEq α] (l : List α) (x : α) :
    x ∈ dedupFirst l ↔ x ∈ l := by
  rw [dedupFirst, mem_dedupAux]
  simp

theorem dedupAux_nodup {α : Type} [DecidableEq α] (seen : List α) (l : List α) :
    (dedupAux seen l).Nodup := by
  induction l generalizing seen with
  | nil => exact List.nodup_nil
  | cons a as ih =>
    by_cases ha : a ∈ seen
    · rw [dedupAux, if_pos ha]
      exact ih seen
    · rw [dedupAux, if_neg ha]
      refine List.nodup_cons.mpr ⟨?_, ih (a :: seen)⟩
      intro hmem
      exact ((mem_dedupAux _ _ _).mp hmem).2 (List.mem_cons_self _ _)

theorem dedupFirst_nodup {α : Type} [DecidableEq α] (l : List α) : (dedupFirst l).Nodup :=
  dedupAux_nodup [] l

/-! ### Helper lemmas about the cleaning pipeline -/

theorem cleanPipeline_rows (df : Table) :
    (cleanPipeline df).rows =
      (dedupFirst ((dropna df).rows)).map (fun r => r.map trimCell) := rfl

theorem cleanPipeline_cols (df : Table) :
    (cleanPipeline df).cols = df.cols.map normalizeName := rfl

theorem load_ok_iff (df t : Table) :
    (load_and_clean_data (.ok df)).2 = some t ↔
      missingColumn (cleanPipeline df) = none ∧ t = cleanPipeline df := by
  cases h : missingColumn (cleanPipeline df) with
  | some c =>
    simp [load_and_clean_data, loadBody, h]
  | none =>
    simp [load_and_clean_data, loadBody, h, eq_comm]

/-! ### Helper lemmas about `value_counts` -/

theorem value_counts_perm (l : List Value) :
    (value_counts l).Perm ((dedupFirst l).map (fun v => (v, l.count v))) :=
  List.mergeSort_perm _ _

theorem value_counts_sorted (l : List Value) :
    (value_counts l).Pairwise (fun p q => q.2 ≤ p.2) := by
  unfold value_counts
  refine List.Pairwise.imp ?_ (List.sorted_mergeSort ?_ ?_ _)
  · intro a b h
    exact of_decide_eq_true h
  · intro a b c hab hbc
    simp only [decide_eq_true_eq] at hab hbc ⊢
    omega
  · intro a b
    simp only [Bool.or_eq_true, decide_eq_true_eq]
    omega

theorem value_counts_nodup (l : List Value) : (value_counts l).Nodup := by
  refine ((value_counts_perm l).nodup_iff).mpr ?_
  exact (dedupFirst_nodup l).map (fun a b h => congrArg Prod.fst h)

theorem mem_value_counts {l : List Value} {p : Value × Nat} :
    p ∈ value_counts l ↔ p.1 ∈ dedupFirst l ∧ p.2 = l.count p.1 := by
  rw [(value_counts_perm l).mem_iff, List.mem_map]
  constructor
  · rintro ⟨v, hv, rfl⟩
    exact ⟨hv, rfl⟩
  · rintro ⟨h1, h2⟩
    exact ⟨p.1, h1, Prod.ext rfl h2.symm⟩

theorem take_value_counts_spec (l : List Value) (k : Nat)
    (hk : k ≤ (dedupFirst l).length)
    (hdist : ∀ a ∈ dedupFirst l, ∀ b ∈ dedupFirst l, a ≠ b → l.count a ≠ l.count b) :
    ((value_counts l).take k).length = k ∧
    (∀ p ∈ (value_counts l).take k, p.1 ∈ dedupFirst l ∧ p.2 = l.count p.1) ∧
    List.Pairwise (fun p q : Value × Nat => q.2 < p.2) ((value_counts l).take k) ∧
    (∀ v ∈ dedupFirst l, v ∉ ((value_counts l).take k).map Prod.fst →
      ∀ p ∈ (value_counts l).take k, l.count v < p.2) := by
  have hlen : (value_counts l).length = (dedupFirst l).length :=
    (value_counts_perm l).length_eq.trans (List.length_map _ _)
  have hmem : ∀ p ∈ (value_counts l).take k, p.1 ∈ dedupFirst l ∧ p.2 = l.count p.1 :=
    fun p hp => mem_value_counts.mp (List.take_subset _ _ hp)
  have hsn : List.Pairwise (fun p q : Value × Nat => q.2 ≤ p.2 ∧ p ≠ q) (value_counts l) :=
    (value_counts_sorted l).and (value_counts_nodup l)
  refine ⟨?_, hmem, ?_, ?_⟩
  · rw [List.length_take, hlen]
    omega
  · refine List.Pairwise.imp_of_mem ?_
      (List.Pairwise.sublist (List.take_sublist _ _) hsn)
    intro p q hp hq hpq
    obtain ⟨hle, hne⟩ := hpq
    rcases Nat.lt_or_ge q.2 p.2 with hlt | hge
    · exact hlt
    · exfalso
      have heq : p.2 = q.2 := Nat.le_antisymm hge hle
      obtain ⟨hp1, hp2⟩ := hmem p hp
      obtain ⟨hq1, hq2⟩ := hmem q hq
      by_cases h1 : p.1 = q.1
      · exact hne (Prod.ext h1 heq)
      · refine hdist p.1 hp1 q.1 hq1 h1 ?_
        rw [← hp2, ← hq2]
        exact heq
  · intro v hv hnot p hp
    have hvmem : ((v, l.count v) : Value × Nat) ∈ value_counts l :=
      mem_value_counts.mpr ⟨hv, rfl⟩
    rw [← List.take_append_drop k (value_counts l)] at hvmem
    rcases List.mem_append.mp hvmem with hin | hin
    · exact absurd (List.mem_map.mpr ⟨(v, l.count v), hin, rfl⟩) hnot
    · have hso : List.Pairwise (fun p q : Value × Nat => q.2 ≤ p.2 ∧ p ≠ q)
          ((value_counts l).take k ++ (value_counts l).drop k) := by
        rw [List.take_append_drop]
        exact hsn
      obtain ⟨hle, hne⟩ := (List.pairwise_append.mp hso).2.2 p hp (v, l.count v) hin
      rcases Nat.lt_or_ge (l.count v) p.2 with hlt | hge
      · exact hlt
      · exfalso
        obtain ⟨hp1, hp2⟩ := hmem p hp
        have heq : p.2 = l.count v := Nat.le_antisymm hge hle
        by_cases h1 : p.1 = v
        · exact hne (Prod.ext h1 heq)
        · refine hdist p.1 hp1 v hv h1 ?_
          rw [← hp2]
          exact heq

/-! ### The claims -/

/-- C10: `load_and_clean_data` never propagates an exception: for every
input it returns either the cleaned table (when its `try` body
succeeds) or `None`, with the raised exception caught, printed as a
console diagnostic, and converted to the `None` result. -/
theorem C10_load_never_propagates (input : Except String Table) :
    (∃ t, loadBody input = .ok t ∧ load_and_clean_data input = ([], some t)) ∨
    (∃ e, loadBody input = .error e ∧
      load_and_clean_data input =
        ([Event.eprint ("Error loading or cleaning data: " ++ e)], none)) := by
  cases hb : loadBody input with
  | ok t => exact Or.inl ⟨t, rfl, by simp [load_and_clean_data, hb]⟩
  | error e => exact Or.inr ⟨e, rfl, by simp [load_and_clean_data, hb]⟩

/-- C1: if a required column is absent after column-name normalization,
`load_and_clean_data` returns `None`, the orchestrator prints the
failure message and stops, and the run writes no file at all (no chart
image and no exported spreadsheet). -/
theorem C1_missing_column_aborts_run (df : Table) (c : String)
    (h : missingColumn (cleanPipeline df) = some c) :
    (load_and_clean_data (.ok df)).2 = none ∧
    Event.eprint "Failed to process data. Please check the input file and try again."
      ∈ main (.ok df) ∧
    ∀ e ∈ main (.ok df), e.isFileWrite = false := by
  have hb : loadBody (.ok df) =
      .error ("Required column " ++ c ++ " not found in dataset") := by
    simp [loadBody, h]
  have hl : load_and_clean_data (.ok df) =
      ([Event.eprint
          ("Error loading or cleaning data: " ++ ("Required column " ++ c ++ " not found in dataset"))],
        none) := by
    simp [load_and_clean_data, hb]
  have hm : main (.ok df) =
      [Event.eprint "Loading and cleaning data...",
       Event.eprint
         ("Error loading or cleaning data: " ++ ("Required column " ++ c ++ " not found in dataset")),
       Event.eprint "Failed to process data. Please check the input file and try again."] := by
    simp [main, hl]
  refine ⟨by rw [hl], by rw [hm]; simp, ?_⟩
  intro e he
  rw [hm] at he
  simp only [List.mem_cons, List.not_mem_nil, or_false] at he
  rcases he with rfl | rfl | rfl <;> rfl

/-- Witness for C1 at a concrete table whose columns lack `delivery`. -/
theorem C1_witness :
    missingColumn (cleanPipeline dfMissing) = some "delivery" ∧
    ((load_and_clean_data (.ok dfMissing)).2 = none ∧
      Event.eprint "Failed to process data. Please check the input file and try again."
        ∈ main (.ok dfMissing) ∧
      ∀ e ∈ main (.ok dfMissing), e.isFileWrite = false) :=
  ⟨by decide, C1_missing_column_aborts_run dfMissing "delivery" (by decide)⟩

/-- C2: the Loader/Cleaner is exactly the composition copy → drop null
rows → drop duplicate rows → normalize column names → trim string cells,
followed by the required-column check: it returns `some t` precisely
when the check passes on the composed result and `t` is that result. -/
theorem C2_cleaning_composition (df : Table) (t : Table) :
    (load_and_clean_data (.ok df)).2 = some t ↔
      missingColumn
          (applymapStrip (normalizeColumns (drop_duplicates (dropna (Table.copy df))))) = none ∧
        t = applymapStrip (normalizeColumns (drop_duplicates (dropna (Table.copy df)))) :=
  load_ok_iff df t

/-- C6: the Summarizer emits, in this fixed order, the cleaned row
count, the distinct-`statename` count, the distinct-`district` count,
and the displayed set of distinct `officetype` values, and it writes no
file. -/
theorem C6_summary_output (df : Table) :
    generate_summary_stats df =
      [Event.eprint "\n=== BASIC SUMMARY ===",
       Event.eprint ("Total Entries After Cleaning: " ++ toString df.rows.length),
       Event.eprint ("Unique States: " ++ toString (nunique (column df "statename"))),
       Event.eprint ("Unique Districts: " ++ toString (nunique (column df "district"))),
       Event.eprint
         ("Unique Office Types: " ++ displayValues (uniqueValues (column df "officetype")))] ∧
    ∀ e ∈ generate_summary_stats df, e.isFileWrite = false := by
  refine ⟨rfl, ?_⟩
  intro e he
  simp only [generate_summary_stats, List.mem_cons, List.not_mem_nil, or_false] at he
  rcases he with rfl | rfl | rfl | rfl | rfl <;> rfl

/-- C8: downstream stages never change the cleaned table: whenever the
Loader returns a table, the only spreadsheet the whole run exports is
exactly that table. -/
theorem C8_export_equals_cleaned (input : Except String Table) (df : Table)
    (h : (load_and_clean_data input).2 = some df) :
    exportedTables (main input) = [df] ∧
    Event.eexport "cleaned_postal_dataset.xlsx" df ∈ main input := by
  cases hb : loadBody input with
  | error e =>
    rw [show load_and_clean_data input =
        ([Event.eprint ("Error loading or cleaning data: " ++ e)], none) by
      simp [load_and_clean_data, hb]] at h
    exact absurd h (by simp)
  | ok t =>
    have hl : load_and_clean_data input = ([], some t) := by
      simp [load_and_clean_data, hb]
    rw [hl] at h
    cases Option.some.inj h
    constructor
    · simp [main, hl, generate_summary_stats, create_visualizations, exportedTables]
    · simp [main, hl, generate_summary_stats, create_visualizations]

/-- Witness for C8 at a concrete successfully cleaned table. -/
theorem C8_witness :
    (load_and_clean_data (.ok dfFull)).2 = some (cleanPipeline dfFull) ∧
    exportedTables (main (.ok dfFull)) = [cleanPipeline dfFull] ∧
    Event.eexport "cleaned_postal_dataset.xlsx" (cleanPipeline dfFull) ∈ main (.ok dfFull) :=
  ⟨by decide, C8_export_equals_cleaned (.ok dfFull) (cleanPipeline dfFull) (by decide)⟩

/-- C9: the pipeline is deterministic in its data-derived output: two
runs on the same input produce the same console lines (hence the same
Summarizer counts) and the same exported-spreadsheet row counts. -/
theorem C9_two_runs_agree (input : Except String Table) (r1 r2 : List Event)
    (h1 : r1 = main input) (h2 : r2 = main input) :
    printedLines r1 = printedLines r2 ∧ exportedRowCounts r1 = exportedRowCounts r2 := by
  subst h1
  subst h2
  exact ⟨rfl, rfl⟩

/-- Witness for C9: two runs on the concrete table `dfFull`. -/
theorem C9_witness :
    (main (.ok dfFull) = main (.ok dfFull)) ∧
    printedLines (main (.ok dfFull)) = printedLines (main (.ok dfFull)) ∧
    exportedRowCounts (main (.ok dfFull)) = exportedRowCounts (main (.ok dfFull)) :=
  ⟨rfl, C9_two_runs_agree (.ok dfFull) (main (.ok dfFull)) (main (.ok dfFull)) rfl rfl⟩

/-- C3 fails as stated: `dfC3` still has exact duplicate rows after the
null-drop step, yet the cleaned table `load_and_clean_data` returns
contains two equal rows, because cell-trimming runs after the
duplicate-drop and maps the two surviving rows (which differed only by
a trailing space in one cell) to the same row. -/
theorem C3_counterexample :
    ¬ (dropna dfC3).rows.Nodup ∧
    (load_and_clean_data (.ok dfC3)).2 = some tC3out ∧
    ¬ tC3out.rows.Nodup := by
  refine ⟨by decide, by decide, by decide⟩

/-- C3 (amended): immediately after the duplicate-drop step each
distinct row occurs exactly once; the cleaned table's rows are the
cell-trimmed images of those pairwise-distinct rows, and the trimming
step may map rows differing only in cell whitespace to equal rows. -/
theorem C3_dedup_before_trim (df t : Table)
    (h : (load_and_clean_data (.ok df)).2 = some t) :
    (drop_duplicates (dropna df)).rows.Nodup ∧
    t.rows = (drop_duplicates (dropna df)).rows.map (fun r => r.map trimCell) := by
  obtain ⟨-, rfl⟩ := (load_ok_iff df t).mp h
  exact ⟨dedupFirst_nodup _, cleanPipeline_rows df⟩

/-- Witness for the amended C3 at the concrete table `dfC3`. -/
theorem C3_witness :
    (load_and_clean_data (.ok dfC3)).2 = some tC3out ∧
    ((drop_duplicates (dropna dfC3)).rows.Nodup ∧
      tC3out.rows = (drop_duplicates (dropna dfC3)).rows.map (fun r => r.map trimCell)) :=
  ⟨by decide, C3_dedup_before_trim dfC3 tC3out (by decide)⟩

/-- C4: in the cleaned table every string cell has no leading or
trailing whitespace; every cleaned row is the cell-wise `trimCell`
image of an input row, and `trimCell` leaves every non-string cell
unchanged. -/
theorem C4_cells_trimmed (df t : Table)
    (h : (load_and_clean_data (.ok df)).2 = some t) :
    (∀ r ∈ t.rows, ∀ v ∈ r, ∀ s, v = Value.vStr s →
      (∀ c, s.data.head? = some c → c.isWhitespace = false) ∧
      (∀ c, s.data.getLast? = some c → c.isWhitespace = false)) ∧
    (∀ r ∈ t.rows, ∃ r₀, r₀ ∈ df.rows ∧ r = r₀.map trimCell) ∧
    (∀ v : Value, v.isStr = false → trimCell v = v) := by
  obtain ⟨-, rfl⟩ := (load_ok_iff df t).mp h
  refine ⟨?_, ?_, ?_⟩
  · intro r hr v hv s hs
    rw [cleanPipeline_rows] at hr
    obtain ⟨r₁, hr₁, rfl⟩ := List.mem_map.mp hr
    obtain ⟨v₁, hv₁, rfl⟩ := List.mem_map.mp hv
    cases v₁ with
    | vStr s₁ =>
      have hstrip : strip s₁ = s := by simpa [trimCell] using hs
      subst hstrip
      constructor
      · intro c hc
        exact trimChars_head? hc
      · intro c hc
        exact trimChars_getLast? hc
    | vNum n => simp [trimCell] at hs
    | vNull => simp [trimCell] at hs
  · intro r hr
    rw [cleanPipeline_rows] at hr
    obtain ⟨r₁, hr₁, rfl⟩ := List.mem_map.mp hr
    have hr₂ : r₁ ∈ (dropna df).rows := (mem_dedupFirst _ _).mp hr₁
    have hr₃ : r₁ ∈ df.rows := (List.mem_filter.mp hr₂).1
    exact ⟨r₁, hr₃, rfl⟩
  · intro v hv
    cases v with
    | vStr s => simp [Value.isStr] at hv
    | vNum n => rfl
    | vNull => rfl

/-- Witness for C4 at the concrete table `dfFull`. -/
theorem C4_witness :
    (load_and_clean_data (.ok dfFull)).2 = some (cleanPipeline dfFull) ∧
    ((∀ r ∈ (cleanPipeline dfFull).rows, ∀ v ∈ r, ∀ s, v = Value.vStr s →
        (∀ c, s.data.head? = some c → c.isWhitespace = false) ∧
        (∀ c, s.data.getLast? = some c → c.isWhitespace = false)) ∧
      (∀ r ∈ (cleanPipeline dfFull).rows, ∃ r₀, r₀ ∈ dfFull.rows ∧ r = r₀.map trimCell) ∧
      (∀ v : Value, v.isStr = false → trimCell v = v)) :=
  ⟨by decide, C4_cells_trimmed dfFull (cleanPipeline dfFull) (by decide)⟩

/-- C5: every column name of the cleaned table is lowercase (no
uppercase ASCII letter) and has no leading or trailing whitespace,
whatever the input column names look like. -/
theorem C5_columns_normalized (df t : Table)
    (h : (load_and_clean_data (.ok df)).2 = some t) :
    ∀ name ∈ t.cols,
      (∀ c ∈ name.data, c.isUpper = false) ∧
      (∀ c, name.data.head? = some c → c.isWhitespace = false) ∧
      (∀ c, name.data.getLast? = some c → c.isWhitespace = false) := by
  obtain ⟨-, rfl⟩ := (load_ok_iff df t).mp h
  intro name hname
  rw [cleanPipeline_cols] at hname
  obtain ⟨s, -, rfl⟩ := List.mem_map.mp hname
  refine ⟨?_, ?_, ?_⟩
  · intro c hc
    have hc2 : c ∈ (trimChars s.data).map Char.toLower := hc
    obtain ⟨c₀, -, rfl⟩ := List.mem_map.mp hc2
    exact toLower_not_upper c₀
  · intro c hc
    have hc2 : ((trimChars s.data).map Char.toLower).head? = some c := hc
    rw [List.head?_map] at hc2
    cases hh : (trimChars s.data).head? with
    | none =>
      rw [hh] at hc2
      exact Option.noConfusion hc2
    | some c₀ =>
      rw [hh] at hc2
      simp only [Option.map_some'] at hc2
      cases hc2
      exact toLower_not_ws c₀ (trimChars_head? hh)
  · intro c hc
    have hc2 : ((trimChars s.data).map Char.toLower).getLast? = some c := hc
    rw [List.getLast?_map] at hc2
    cases hh : (trimChars s.data).getLast? with
    | none =>
      rw [hh] at hc2
      exact Option.noConfusion hc2
    | some c₀ =>
      rw [hh] at hc2
      simp only [Option.map_some'] at hc2
      cases hc2
      exact toLower_not_ws c₀ (trimChars_getLast? hh)

/-- C7: whenever at least 10 distinct `statename` values exist and
their row counts are pairwise distinct, the top-10-states aggregate
(the data of the fourth chart, whose bar labels are exactly its counts)
selects precisely the 10 states of highest row count, in strictly
descending count order, each annotated with its exact row count: it has
10 entries, each entry pairs a state with its row count, consecutive
counts strictly decrease, and every unselected state has a strictly
smaller count than every selected one. -/
theorem C7_top10_states (df : Table)
    (h10 : 10 ≤ (dedupFirst (column df "statename")).length)
    (hdist : ∀ a ∈ dedupFirst (column df "statename"),
      ∀ b ∈ dedupFirst (column df "statename"),
      a ≠ b → (column df "statename").count a ≠ (column df "statename").count b) :
    (top10_states df).length = 10 ∧
    (∀ p ∈ top10_states df,
      p.1 ∈ dedupFirst (column df "statename") ∧
      p.2 = (column df "statename").count p.1) ∧
    List.Pairwise (fun p q : Value × Nat => q.2 < p.2) (top10_states df) ∧
    (∀ v ∈ dedupFirst (column df "statename"), v ∉ (top10_states df).map Prod.fst →
      ∀ p ∈ top10_states df, (column df "statename").count v < p.2) ∧
    Event.esave "top10_states_postoffices.png" (ChartData.bars (top10_states df))
      ∈ create_visualizations df := by
  obtain ⟨h1, h2, h3, h4⟩ := take_value_counts_spec (column df "statename") 10 h10 hdist
  exact ⟨h1, h2, h3, h4, by simp [create_visualizations]⟩

/-- Witness for C7 at `dfTop`, which has 15 distinct states with
strictly increasing row counts. -/
theorem C7_witness :
    (10 ≤ (dedupFirst (column dfTop "statename")).length ∧
      ∀ a ∈ dedupFirst (column dfTop "statename"),
        ∀ b ∈ dedupFirst (column dfTop "statename"),
        a ≠ b → (column dfTop "statename").count a ≠ (column dfTop "statename").count b) ∧
    ((top10_states dfTop).length = 10 ∧
      (∀ p ∈ top10_states dfTop,
        p.1 ∈ dedupFirst (column dfTop "statename") ∧
        p.2 = (column dfTop "statename").count p.1) ∧
      List.Pairwise (fun p q : Value × Nat => q.2 < p.2) (top10_states dfTop) ∧
      (∀ v ∈ dedupFirst (column dfTop "statename"), v ∉ (top10_states dfTop).map Prod.fst →
        ∀ p ∈ top10_states dfTop, (column dfTop "statename").count v < p.2) ∧
      Event.esave "top10_states_postoffices.png" (ChartData.bars (top10_states dfTop))
        ∈ create_visualizations dfTop) :=
  ⟨⟨by decide, by decide⟩, C7_top10_states dfTop (by decide) (by decide)⟩

/-- Witness for C5 at the concrete table `dfFull`, whose raw column
names are mixed-case with surrounding whitespace. -/
theorem C5_witness :
    (load_and_clean_data (.ok dfFull)).2 = some (cleanPipeline dfFull) ∧
    ∀ name ∈ (cleanPipeline dfFull).cols,
      (∀ c ∈ name.data, c.isUpper = false) ∧
      (∀ c, name.data.head? = some c → c.isWhitespace = false) ∧
      (∀ c, name.data.getLast? = some c → c.isWhitespace = false) :=
  ⟨by decide, C5_columns_normalized dfFull (cleanPipeline dfFull) (by decide)⟩

end Postal
